import Mathlib

/-!
# Verification of the emulite memory and CPU core

A shallow embedding of the parts of the emulite emulator that the
specification's claims are about: the memory mapper with its RAM/ROM
devices (`src/memory/mod.rs`), the bank controller, the MOS 6502, M68k
and MIPS interpreter state with their reset / register / memory-access
operations (`src/cpu/*.rs`), and the platform-detection routine of the
core emulator (`src/core/mod.rs`).

Machine integers are modelled as `Nat` with explicit `% 2^w` where the
Rust code can wrap; `Vec<u8>` indexing that can panic is modelled with
`Option` (or a bounds check mirroring the source's own check); fallible
Rust functions returning `Result<T>` become `Except EmuliteError T`,
and `&mut self -> Result<()>` methods become functions returning the
new state paired with `Option EmuliteError` (errors occur in the source
before any mutation, so the paired state on an error is the input
state).
-/

set_option autoImplicit false

namespace Emulite

/-- The subset of `EmuliteError` (src/lib.rs) reachable from the embedded
operations. -/
inductive EmuliteError where
  | unsupportedPlatform (msg : String)
  | invalidRom (msg : String)
  | memoryAccessViolation (address : Nat)
  | cpuError (msg : String)
  deriving DecidableEq, Repr

/-! ## Memory bank controller (src/memory/mod.rs, `MemoryBankController`) -/

/-- `MemoryBankController` state: a vector of banks, the index of the
currently selected bank, the fixed bank size and the total bank count. -/
structure MemoryBankController where
  banks : List (List Nat)
  currentBank : Nat
  bankSize : Nat
  totalBanks : Nat
  deriving DecidableEq, Repr

namespace MemoryBankController

/-- `MemoryBankController::new(bank_size, total_banks)`. -/
def new (bankSize totalBanks : Nat) : MemoryBankController :=
  { banks := List.replicate totalBanks (List.replicate bankSize 0)
    currentBank := 0
    bankSize := bankSize
    totalBanks := totalBanks }

/-- `MemoryBankController::switch_bank`.  The error value carries
`bank as u32`, hence the `% 2^32`. -/
def switchBank (s : MemoryBankController) (bank : Nat) :
    MemoryBankController × Option EmuliteError :=
  if s.totalBanks ≤ bank then
    (s, some (.memoryAccessViolation (bank % 4294967296)))
  else
    ({ s with currentBank := bank }, none)

/-- `MemoryBankController::read`.  In the source the in-range access is
`self.banks[self.current_bank][offset]`; the `getD` defaults are only
reachable when that indexing would panic. -/
def read (s : MemoryBankController) (address : Nat) : Except EmuliteError Nat :=
  if s.bankSize ≤ address then
    .error (.memoryAccessViolation address)
  else
    .ok (((s.banks.getD s.currentBank []).getD address 0))

/-- `MemoryBankController::write`. -/
def write (s : MemoryBankController) (address value : Nat) :
    MemoryBankController × Option EmuliteError :=
  if s.bankSize ≤ address then
    (s, some (.memoryAccessViolation address))
  else
    let updated := (s.banks.getD s.currentBank []).set address value
    ({ s with banks := s.banks.set s.currentBank updated }, none)

/-- `MemoryBankController::load_bank`. -/
def loadBank (s : MemoryBankController) (bank : Nat) (data : List Nat) :
    MemoryBankController × Option EmuliteError :=
  if s.totalBanks ≤ bank then
    (s, some (.memoryAccessViolation (bank % 4294967296)))
  else if data.length ≠ s.bankSize then
    (s, some (.memoryAccessViolation (data.length % 4294967296)))
  else
    ({ s with banks := s.banks.set bank data }, none)

end MemoryBankController

/-- The states of a `MemoryBankController` reachable from a construction
with a positive bank count through its public operations (`read` does not
mutate; every mutating operation's post-state is the first component of
the returned pair). -/
inductive MBCReachable : MemoryBankController → Prop where
  | construct (bankSize totalBanks : Nat) (h : 0 < totalBanks) :
      MBCReachable (MemoryBankController.new bankSize totalBanks)
  | switchBank (s : MemoryBankController) (bank : Nat) (h : MBCReachable s) :
      MBCReachable (s.switchBank bank).1
  | write (s : MemoryBankController) (address value : Nat) (h : MBCReachable s) :
      MBCReachable (s.write address value).1
  | loadBank (s : MemoryBankController) (bank : Nat) (data : List Nat)
      (h : MBCReachable s) : MBCReachable (s.loadBank bank data).1

theorem MemoryBankController.switchBank_invalid (s : MemoryBankController)
    (bank : Nat) (h : s.totalBanks ≤ bank) :
    s.switchBank bank = (s, some (.memoryAccessViolation (bank % 4294967296))) := by
  simp [switchBank, h]

theorem MemoryBankController.switchBank_valid (s : MemoryBankController)
    (bank : Nat) (h : bank < s.totalBanks) :
    s.switchBank bank = ({ s with currentBank := bank }, none) := by
  simp [switchBank, Nat.not_le.mpr h]

theorem MBCReachable.currentBank_lt {s : MemoryBankController}
    (h : MBCReachable s) : s.currentBank < s.totalBanks := by
  induction h with
  | construct bankSize totalBanks h => simpa [MemoryBankController.new] using h
  | switchBank s bank h ih =>
      by_cases hb : s.totalBanks ≤ bank
      · simpa [MemoryBankController.switchBank, hb] using ih
      · simpa [MemoryBankController.switchBank, hb] using Nat.not_le.mp hb
  | write s address value h ih =>
      by_cases ha : s.bankSize ≤ address
      · simpa [MemoryBankController.write, ha] using ih
      · simpa [MemoryBankController.write, ha] using ih
  | loadBank s bank data h ih =>
      by_cases hb : s.totalBanks ≤ bank
      · simpa [MemoryBankController.loadBank, hb] using ih
      · by_cases hl : data.length = s.bankSize
        · simpa [MemoryBankController.loadBank, hb, hl] using ih
        · simpa [MemoryBankController.loadBank, hb, hl] using ih

/-! ## Memory devices and the memory mapper (src/memory/mod.rs) -/

/-- The two concrete `MemoryDevice` implementations of the source:
`RamDevice` and `RomDevice`, each a byte vector plus its start address. -/
inductive MemoryDevice where
  | ram (data : List Nat) (startAddress : Nat)
  | rom (data : List Nat) (startAddress : Nat)
  deriving DecidableEq, Repr

namespace MemoryDevice

/-- `range()`: `(start_address, start_address + data.len() as u32 - 1)` in
u32 arithmetic (the `- 1` wraps when the data vector is empty). -/
def range : MemoryDevice → Nat × Nat
  | .ram data startAddress => (startAddress, (startAddress + data.length + 4294967295) % 4294967296)
  | .rom data startAddress => (startAddress, (startAddress + data.length + 4294967295) % 4294967296)

/-- `RamDevice::read` / `RomDevice::read`: `offset = address - start_address`
as wrapping u32 subtraction, out-of-range offsets fail with a
memory-access violation carrying the address. -/
def read (d : MemoryDevice) (address : Nat) : Except EmuliteError Nat :=
  match d with
  | .ram data startAddress =>
      let offset := (address + 4294967296 - startAddress) % 4294967296
      if data.length ≤ offset then .error (.memoryAccessViolation address)
      else .ok (data.getD offset 0)
  | .rom data startAddress =>
      let offset := (address + 4294967296 - startAddress) % 4294967296
      if data.length ≤ offset then .error (.memoryAccessViolation address)
      else .ok (data.getD offset 0)

/-- `RamDevice::write` stores the byte at the in-range offset;
`RomDevice::write` always fails with a memory-access violation and never
touches the data. -/
def write (d : MemoryDevice) (address value : Nat) : Except EmuliteError MemoryDevice :=
  match d with
  | .ram data startAddress =>
      let offset := (address + 4294967296 - startAddress) % 4294967296
      if data.length ≤ offset then .error (.memoryAccessViolation address)
      else .ok (.ram (data.set offset value) startAddress)
  | .rom _ _ => .error (.memoryAccessViolation address)

end MemoryDevice

/-- `MemoryAccess` permissions. -/
inductive MemoryAccess where
  | readOnly
  | writeOnly
  | readWrite
  | noAccess
  deriving DecidableEq, Repr

/-- `MemoryRegion` (the Rust field `end` is a Lean keyword, rendered
`endAddr`). -/
structure MemoryRegion where
  start : Nat
  endAddr : Nat
  access : MemoryAccess
  name : String
  device : Option String
  deriving DecidableEq, Repr

/-- `MemoryMapper`: the `HashMap<String, device>` is modelled as an
association list (`lookupDevice` takes the most recent binding, and
`insertDevice` replaces, matching `HashMap::insert`). -/
structure MemoryMapper where
  devices : List (String × MemoryDevice)
  regions : List MemoryRegion
  addressSpaceSize : Nat

/-- Association-list lookup standing in for `HashMap::get`. -/
def lookupDevice : List (String × MemoryDevice) → String → Option MemoryDevice
  | [], _ => none
  | (k, d) :: rest, name => if k = name then some d else lookupDevice rest name

/-- Association-list insert standing in for `HashMap::insert` (replaces any
existing binding for the key). -/
def insertDevice (devices : List (String × MemoryDevice)) (name : String)
    (d : MemoryDevice) : List (String × MemoryDevice) :=
  (name, d) :: devices.filter (fun kv => kv.1 ≠ name)

/-- Stable insertion of a region into a list sorted by start address. -/
def insertByStart (r : MemoryRegion) : List MemoryRegion → List MemoryRegion
  | [] => [r]
  | x :: xs => if r.start < x.start then r :: x :: xs else x :: insertByStart r xs

/-- Stable sort by start address, modelling `regions.sort_by_key(|r| r.start)`
(extensionally equal to any stable sort on the `start` key). -/
def sortByStart : List MemoryRegion → List MemoryRegion
  | [] => []
  | x :: xs => insertByStart x (sortByStart xs)

/-- The overlap test of `MemoryMapper::add_device`: some registered region
fails `end < region.start || start > region.end`. -/
def overlapsAny (regions : List MemoryRegion) (start endAddr : Nat) : Bool :=
  regions.any fun r => decide (¬ (endAddr < r.start ∨ r.endAddr < start))

namespace MemoryMapper

/-- `MemoryMapper::new`. -/
def new (addressSpaceSize : Nat) : MemoryMapper :=
  { devices := [], regions := [], addressSpaceSize := addressSpaceSize }

/-- `MemoryMapper::add_device`: reject any overlap with a registered region
before mutating anything; otherwise insert the device and push a
`ReadWrite` region, re-sorting by start address. -/
def addDevice (m : MemoryMapper) (name : String) (dev : MemoryDevice) :
    MemoryMapper × Option EmuliteError :=
  let start := dev.range.1
  let endAddr := dev.range.2
  if overlapsAny m.regions start endAddr then
    (m, some (.memoryAccessViolation start))
  else
    let region : MemoryRegion :=
      { start := start, endAddr := endAddr, access := .readWrite
        name := name, device := some name }
    ({ m with devices := insertDevice m.devices name dev
              regions := sortByStart (m.regions ++ [region]) }, none)

end MemoryMapper

/-- The region-scanning loop of `MemoryMapper::read`: first containing
region with an acceptable permission and a resolvable device answers; a
containing region with a bad permission aborts; otherwise the scan
continues, and an exhausted scan is a memory-access violation. -/
def readLoop (devices : List (String × MemoryDevice)) (address : Nat) :
    List MemoryRegion → Except EmuliteError Nat
  | [] => .error (.memoryAccessViolation address)
  | r :: rest =>
    if r.start ≤ address ∧ address ≤ r.endAddr then
      if r.access = .writeOnly ∨ r.access = .noAccess then
        .error (.memoryAccessViolation address)
      else
        match r.device with
        | some dname =>
          match lookupDevice devices dname with
          | some dev => dev.read address
          | none => readLoop devices address rest
        | none => readLoop devices address rest
    else readLoop devices address rest

/-- `readLoop` with the `WriteOnly`/`NoAccess` rejection branch removed,
used to state that the branch is unreachable on all-`ReadWrite` mappers. -/
def readLoopNoPerm (devices : List (String × MemoryDevice)) (address : Nat) :
    List MemoryRegion → Except EmuliteError Nat
  | [] => .error (.memoryAccessViolation address)
  | r :: rest =>
    if r.start ≤ address ∧ address ≤ r.endAddr then
      match r.device with
      | some dname =>
        match lookupDevice devices dname with
        | some dev => dev.read address
        | none => readLoopNoPerm devices address rest
      | none => readLoopNoPerm devices address rest
    else readLoopNoPerm devices address rest

/-- The region-scanning loop of `MemoryMapper::write`. -/
def writeLoop (m : MemoryMapper) (address value : Nat) :
    List MemoryRegion → MemoryMapper × Option EmuliteError
  | [] => (m, some (.memoryAccessViolation address))
  | r :: rest =>
    if r.start ≤ address ∧ address ≤ r.endAddr then
      if r.access = .readOnly ∨ r.access = .noAccess then
        (m, some (.memoryAccessViolation address))
      else
        match r.device with
        | some dname =>
          match lookupDevice m.devices dname with
          | some dev =>
            match dev.write address value with
            | .ok updated => ({ m with devices := insertDevice m.devices dname updated }, none)
            | .error e => (m, some e)
          | none => writeLoop m address value rest
        | none => writeLoop m address value rest
    else writeLoop m address value rest

/-- `writeLoop` with the `ReadOnly`/`NoAccess` rejection branch removed. -/
def writeLoopNoPerm (m : MemoryMapper) (address value : Nat) :
    List MemoryRegion → MemoryMapper × Option EmuliteError
  | [] => (m, some (.memoryAccessViolation address))
  | r :: rest =>
    if r.start ≤ address ∧ address ≤ r.endAddr then
      match r.device with
      | some dname =>
        match lookupDevice m.devices dname with
        | some dev =>
          match dev.write address value with
          | .ok updated => ({ m with devices := insertDevice m.devices dname updated }, none)
          | .error e => (m, some e)
        | none => writeLoopNoPerm m address value rest
      | none => writeLoopNoPerm m address value rest
    else writeLoopNoPerm m address value rest

/-- `MemoryMapper::read`. -/
def MemoryMapper.read (m : MemoryMapper) (address : Nat) : Except EmuliteError Nat :=
  if m.addressSpaceSize ≤ address then .error (.memoryAccessViolation address)
  else readLoop m.devices address m.regions

/-- `MemoryMapper::read` with the permission rejection removed. -/
def MemoryMapper.readNoPerm (m : MemoryMapper) (address : Nat) : Except EmuliteError Nat :=
  if m.addressSpaceSize ≤ address then .error (.memoryAccessViolation address)
  else readLoopNoPerm m.devices address m.regions

/-- `MemoryMapper::write`. -/
def MemoryMapper.write (m : MemoryMapper) (address value : Nat) :
    MemoryMapper × Option EmuliteError :=
  if m.addressSpaceSize ≤ address then (m, some (.memoryAccessViolation address))
  else writeLoop m address value m.regions

/-- `MemoryMapper::write` with the permission rejection removed. -/
def MemoryMapper.writeNoPerm (m : MemoryMapper) (address value : Nat) :
    MemoryMapper × Option EmuliteError :=
  if m.addressSpaceSize ≤ address then (m, some (.memoryAccessViolation address))
  else writeLoopNoPerm m address value m.regions

/-! ## MOS 6502 interpreter state (src/cpu/mos6502.rs) -/

/-- ASCII lowercasing of one character, the fragment of Rust
`str::to_lowercase` exercised by the ASCII register names. -/
def asciiLower (c : Char) : Char :=
  if 'A' ≤ c ∧ c ≤ 'Z' then Char.ofNat (c.toNat + 32) else c

/-- ASCII lowercasing of a string (`reg.to_lowercase()` on the ASCII
register names the interpreters match on). -/
def toLowerAscii (s : String) : String :=
  String.mk (s.data.map asciiLower)

/-- `Mos6502` interpreter state.  The 64 KiB `Vec<u8>` memory is modelled
as a byte function on addresses (every access the embedded operations
perform is below `0x10000`, the vector's length, so no panic is
reachable); the decode scratch fields (`opcode`, `operand`,
`addressing_mode`) are irrelevant to the embedded operations and omitted. -/
structure Mos6502 where
  a : Nat
  x : Nat
  y : Nat
  sp : Nat
  pc : Nat
  memory : Nat → Nat
  cycles : Nat
  halted : Bool

namespace Mos6502

/-- `Mos6502::new`. -/
def new : Mos6502 :=
  { a := 0, x := 0, y := 0, sp := 0xFF, pc := 0xFFFC
    memory := fun _ => 0, cycles := 0, halted := false }

/-- Pointwise update of the byte function backing the memory vector. -/
def updateMem (m : Nat → Nat) (address value : Nat) : Nat → Nat :=
  fun i => if i = address then value else m i

/-- `Mos6502::read_memory` (the Atari 2600 hardware map): addresses at or
above `0x10000` and every window the map does not back with RAM/ROM read
as 0; the RAM window `0x0080–0x00FF`, its stack mirror `0x0100–0x01FF`,
the ROM window `0x1000–0x1FFF` and the ROM mirror `0xF000–0xFFFF` read
the backing bytes.  Never fails. -/
def readMemory (cpu : Mos6502) (address : Nat) : Except EmuliteError Nat :=
  if 0x10000 ≤ address then .ok 0
  else if address ≤ 0x7F then .ok 0
  else if 0x80 ≤ address ∧ address ≤ 0xFF then .ok (cpu.memory address)
  else if 0x100 ≤ address ∧ address ≤ 0x1FF then .ok (cpu.memory (address - 0x100))
  else if 0x200 ≤ address ∧ address ≤ 0x27F then .ok 0
  else if 0x280 ≤ address ∧ address ≤ 0x2FF then .ok 0
  else if 0x1000 ≤ address ∧ address ≤ 0x1FFF then .ok (cpu.memory address)
  else if 0xF000 ≤ address ∧ address ≤ 0xFFFF then .ok (cpu.memory address)
  else .ok 0

/-- `Mos6502::write_memory`: only the RAM window `0x0080–0x00FF` and its
stack mirror `0x0100–0x01FF` store the byte; every other address ignores
the write.  Never fails. -/
def writeMemory (cpu : Mos6502) (address value : Nat) : Mos6502 × Option EmuliteError :=
  if 0x10000 ≤ address then (cpu, none)
  else if address ≤ 0x7F then (cpu, none)
  else if 0x80 ≤ address ∧ address ≤ 0xFF then
    ({ cpu with memory := updateMem cpu.memory address value }, none)
  else if 0x100 ≤ address ∧ address ≤ 0x1FF then
    ({ cpu with memory := updateMem cpu.memory (address - 0x100) value }, none)
  else if 0x200 ≤ address ∧ address ≤ 0x27F then (cpu, none)
  else if 0x280 ≤ address ∧ address ≤ 0x2FF then (cpu, none)
  else if 0x1000 ≤ address ∧ address ≤ 0x1FFF then (cpu, none)
  else if 0xF000 ≤ address ∧ address ≤ 0xFFFF then (cpu, none)
  else (cpu, none)

/-- Apply a sequence of `write_memory` calls in order (each pair is an
address and a value). -/
def applyWrites (cpu : Mos6502) : List (Nat × Nat) → Mos6502
  | [] => cpu
  | (address, value) :: rest => applyWrites (cpu.writeMemory address value).1 rest

/-- `Mos6502::get_register`: case-insensitive name, unknown names fail
with a CPU error naming the register. -/
def getRegister (cpu : Mos6502) (reg : String) : Except EmuliteError Nat :=
  match toLowerAscii reg with
  | "a" => .ok cpu.a
  | "x" => .ok cpu.x
  | "y" => .ok cpu.y
  | "sp" => .ok cpu.sp
  | "pc" => .ok cpu.pc
  | _ => .error (.cpuError ("Unknown register: " ++ reg))

/-- `Mos6502::set_register`: the stored value is truncated to the physical
register's width (`value as u8` for a/x/y/sp, `value as u16` for pc). -/
def setRegister (cpu : Mos6502) (reg : String) (value : Nat) :
    Mos6502 × Option EmuliteError :=
  match toLowerAscii reg with
  | "a" => ({ cpu with a := value % 256 }, none)
  | "x" => ({ cpu with x := value % 256 }, none)
  | "y" => ({ cpu with y := value % 256 }, none)
  | "sp" => ({ cpu with sp := value % 256 }, none)
  | "pc" => ({ cpu with pc := value % 65536 }, none)
  | _ => (cpu, some (.cpuError ("Unknown register: " ++ reg)))

end Mos6502

/-! ## Motorola 68000 interpreter state (src/cpu/m68k.rs) -/

/-- `M68k` interpreter state: eight data and eight address registers, `pc`,
the 16-bit status register, and a 16 MiB byte memory modelled as a byte
function plus its length (`memSize = 0x1000000`).  Decode scratch fields
are omitted as in `Mos6502`. -/
structure M68k where
  d : List Nat
  a : List Nat
  pc : Nat
  sr : Nat
  memory : Nat → Nat
  memSize : Nat
  cycles : Nat
  halted : Bool

namespace M68k

/-- `M68k::new`: registers zero, `sr = 0x2000`, 16 MiB of zeroed memory. -/
def new : M68k :=
  { d := List.replicate 8 0, a := List.replicate 8 0, pc := 0, sr := 0x2000
    memory := fun _ => 0, memSize := 0x1000000, cycles := 0, halted := false }

/-- `M68k::read_memory_32`: despite the source's `// Big-endian` comment it
computes `u32::from_be_bytes([b3, b2, b1, b0])` where `b0` is the byte at
`address`, i.e. the byte at `address + 3` becomes the most significant
byte.  `none` models the `Vec` indexing panic on an out-of-bounds
address. -/
def readMemory32 (cpu : M68k) (address : Nat) : Option Nat :=
  if address + 3 < cpu.memSize then
    some (cpu.memory (address + 3) * 16777216 + cpu.memory (address + 2) * 65536 +
      cpu.memory (address + 1) * 256 + cpu.memory address)
  else none

/-- `M68k::reset`: zero the data and address registers, load `pc` via
`read_memory_32(0)` (before the memory is zeroed), set `sr = 0x2000`,
zero the memory, clear cycles and the halted flag.  `none` models the
panic of an out-of-bounds reset-vector read. -/
def reset (cpu : M68k) : Option M68k :=
  match cpu.readMemory32 0 with
  | some vector =>
      some { d := List.replicate 8 0, a := List.replicate 8 0, pc := vector
             sr := 0x2000, memory := fun _ => 0, memSize := cpu.memSize
             cycles := 0, halted := false }
  | none => none

end M68k

/-- The `M68k` state whose first four memory bytes are
`0x12 0x34 0x56 0x78`, the input exhibiting the endianness defect of
`M68k::reset`. -/
def m68kEndianInput : M68k :=
  { M68k.new with memory := fun i =>
      if i = 0 then 0x12 else if i = 1 then 0x34
      else if i = 2 then 0x56 else if i = 3 then 0x78 else 0 }

/-! ## MIPS interpreter state (src/cpu/mips.rs) -/

/-- `Mips` interpreter state: 32 general-purpose registers, `pc`, 32
coprocessor-0 registers, and a 256 MiB byte memory modelled as a byte
function plus its length (`memSize = 0x10000000`). -/
structure Mips where
  registers : List Nat
  pc : Nat
  cp0Registers : List Nat
  memory : Nat → Nat
  memSize : Nat
  cycles : Nat
  halted : Bool

namespace Mips

/-- `Mips::new`: zeroed registers and 256 MiB of zeroed memory. -/
def new : Mips :=
  { registers := List.replicate 32 0, pc := 0, cp0Registers := List.replicate 32 0
    memory := fun _ => 0, memSize := 0x10000000, cycles := 0, halted := false }

/-- `Mips::read_memory_32` (little-endian); `none` models the `Vec`
indexing panic on an out-of-bounds address. -/
def readMemory32 (cpu : Mips) (address : Nat) : Option Nat :=
  if address + 3 < cpu.memSize then
    some (cpu.memory address + cpu.memory (address + 1) * 256 +
      cpu.memory (address + 2) * 65536 + cpu.memory (address + 3) * 16777216)
  else none

/-- `Mips::reset`: zero the general registers, load `pc` via
`read_memory_32(0xBFC00000)`, zero the cp0 registers and the memory.
`none` models the panic of an out-of-bounds reset-vector read. -/
def reset (cpu : Mips) : Option Mips :=
  match cpu.readMemory32 0xBFC00000 with
  | some vector =>
      some { registers := List.replicate 32 0, pc := vector
             cp0Registers := List.replicate 32 0, memory := fun _ => 0
             memSize := cpu.memSize, cycles := 0, halted := false }
  | none => none

end Mips

/-! ## Platform detection (src/core/mod.rs, `Emulator::detect_platform`) -/

/-- The iNES magic `NES\x1A`. -/
def nesMagic : List Nat := [0x4E, 0x45, 0x53, 0x1A]

/-- The extension fallback of `Emulator::detect_platform` (the source
lowercases the extension taken from the path; the embedding receives it
already lowercased).  For `.bin` the source matches the length against
`0..=4096`, `4097..=1048576` (both Atari 2600) and everything larger
(PS1). -/
def detectByExtension (romPath extension : String) (romLength : Nat) :
    Except EmuliteError String :=
  match extension with
  | "a26" => .ok "atari2600"
  | "nes" => .ok "nes"
  | "smc" => .ok "snes"
  | "sfc" => .ok "snes"
  | "iso" => .ok "ps1"
  | "img" => .ok "ps1"
  | "bin" =>
      if romLength ≤ 4096 then .ok "atari2600"
      else if romLength ≤ 1048576 then .ok "atari2600"
      else .ok "ps1"
  | _ => .error (.unsupportedPlatform ("Cannot detect platform for file: " ++ romPath))

/-- `Emulator::detect_platform`: the iNES magic needs at least 16 bytes;
buffers of at least `0x7FC0` bytes undergo the SNES title check (whose
21-byte slice panics — modelled by `none` — when the buffer is shorter
than `header_offset + 21`); everything else falls through to the
extension mapping. -/
def detectPlatform (romPath extension : String) (romData : List Nat) :
    Option (Except EmuliteError String) :=
  if 16 ≤ romData.length ∧ romData.take 4 = nesMagic then
    some (.ok "nes")
  else if 0x7FC0 ≤ romData.length then
    let headerOffset := if 0x8000 ≤ romData.length then 0x7FC0 else 0x7FB0
    if headerOffset < romData.length then
      if headerOffset + 21 ≤ romData.length then
        if ((romData.drop headerOffset).take 21).any (fun b => decide (b ≠ 0)) then
          some (.ok "snes")
        else some (detectByExtension romPath extension romData.length)
      else none
    else some (detectByExtension romPath extension romData.length)
  else some (detectByExtension romPath extension romData.length)

/-! ## Claim theorems -/

/-- Claim C1: after `M68k::reset`, the data and address registers are 0 and
the status register is `0x2000` as the spec says, but the program counter
is the LITTLE-endian interpretation of the four bytes at addresses 0–3:
on memory starting `0x12 0x34 0x56 0x78` the code yields
`pc = 0x78563412`, not the big-endian `0x12345678` the claim requires
(the byte at address 0 becomes the least significant byte, contradicting
the source's own `// Big-endian` comment and its declared
`Endianness::Big`). -/
theorem claim1_m68k_reset_endianness :
    (M68k.reset m68kEndianInput).map M68k.pc = some 0x78563412 ∧
    (M68k.reset m68kEndianInput).map M68k.d = some (List.replicate 8 0) ∧
    (M68k.reset m68kEndianInput).map M68k.a = some (List.replicate 8 0) ∧
    (M68k.reset m68kEndianInput).map M68k.sr = some 0x2000 ∧
    (0x78563412 : Nat) ≠ 0x12345678 :=
  ⟨rfl, rfl, rfl, rfl, by decide⟩

/-- Claim C2: `Mips::reset` does NOT succeed — the reset-vector address
`0xBFC00000` is not below the memory length `0x10000000`, so the read
`memory[0xBFC00000]` is out of bounds and reset aborts (the `Vec`
indexing panic is modelled by `none`). -/
theorem claim2_mips_reset_out_of_bounds :
    Mips.reset Mips.new = none ∧ Mips.new.memSize ≤ 0xBFC00000 :=
  ⟨rfl, by decide⟩

/-- Claim C6, counterexample: the invariant `current_bank < bank_count` does
not hold immediately after every construction — `MemoryBankController::new`
with a bank count of 0 produces `current_bank = 0`, which is not below the
bank count. -/
theorem claim6_counterexample :
    (MemoryBankController.new 16 0).currentBank = 0 ∧
      ¬ (MemoryBankController.new 16 0).currentBank <
          (MemoryBankController.new 16 0).totalBanks := by
  constructor
  · rfl
  · decide

/-- Claim C6 (amended): `switch_bank(n)` with `n >= bank_count` fails with a
memory-access-violation error and leaves the state (hence `current_bank`)
unchanged, and with `n < bank_count` succeeds setting `current_bank := n`;
and `current_bank < bank_count` holds in every state reachable from a
construction with a positive bank count, including immediately after such a
construction. -/
theorem claim6_switch_bank_and_invariant :
    (∀ (s : MemoryBankController) (n : Nat), s.totalBanks ≤ n →
        s.switchBank n = (s, some (.memoryAccessViolation (n % 4294967296)))) ∧
    (∀ (s : MemoryBankController) (n : Nat), n < s.totalBanks →
        s.switchBank n = ({ s with currentBank := n }, none)) ∧
    (∀ s : MemoryBankController, MBCReachable s → s.currentBank < s.totalBanks) :=
  ⟨MemoryBankController.switchBank_invalid,
   MemoryBankController.switchBank_valid,
   fun _ h => h.currentBank_lt⟩

/-- Concrete instantiation of `claim6_switch_bank_and_invariant` on a
controller with 4 banks of 8 bytes. -/
theorem claim6_switch_bank_and_invariant_witness :
    (MemoryBankController.new 8 4).switchBank 9 =
      (MemoryBankController.new 8 4, some (.memoryAccessViolation (9 % 4294967296))) ∧
    (MemoryBankController.new 8 4).switchBank 2 =
      ({ MemoryBankController.new 8 4 with currentBank := 2 }, none) ∧
    (MemoryBankController.new 8 4).currentBank <
      (MemoryBankController.new 8 4).totalBanks :=
  ⟨claim6_switch_bank_and_invariant.1 (MemoryBankController.new 8 4) 9 (by decide),
   claim6_switch_bank_and_invariant.2.1 (MemoryBankController.new 8 4) 2 (by decide),
   claim6_switch_bank_and_invariant.2.2 (MemoryBankController.new 8 4)
     (MBCReachable.construct 8 4 (by decide))⟩

/-- Claim C3, counterexample: on the 6502 the round trip is not the
identity for every u32 value — `set_register("a", 0x100)` stores
`0x100 as u8 = 0`, so the following `get_register("a")` returns 0, not
`0x100`. -/
theorem claim3_counterexample :
    ((Mos6502.new.setRegister "a" 0x100).1.getRegister "a" = .ok 0) ∧
      (0 : Nat) ≠ 0x100 :=
  ⟨rfl, by decide⟩

/-- Claim C3 (amended): for every documented 6502 register name,
`set_register(name, v)` followed by `get_register(name)` returns `v`
truncated to the physical register's width, hence returns exactly `v`
whenever `v` fits: `v < 2^8` for `a`, `x`, `y`, `sp` and `v < 2^16` for
`pc`. -/
theorem claim3_set_get_roundtrip :
    (∀ (cpu : Mos6502) (v : Nat), v < 256 →
        ((cpu.setRegister "a" v).1.getRegister "a" = .ok v) ∧
        ((cpu.setRegister "x" v).1.getRegister "x" = .ok v) ∧
        ((cpu.setRegister "y" v).1.getRegister "y" = .ok v) ∧
        ((cpu.setRegister "sp" v).1.getRegister "sp" = .ok v)) ∧
    (∀ (cpu : Mos6502) (v : Nat), v < 65536 →
        (cpu.setRegister "pc" v).1.getRegister "pc" = .ok v) := by
  constructor
  · intro cpu v hv
    have hm : v % 256 = v := Nat.mod_eq_of_lt hv
    refine ⟨?_, ?_, ?_, ?_⟩ <;>
      · show Except.ok (v % 256) = Except.ok v
        rw [hm]
  · intro cpu v hv
    have hm : v % 65536 = v := Nat.mod_eq_of_lt hv
    show Except.ok (v % 65536) = Except.ok v
    rw [hm]

/-- Concrete instantiation of `claim3_set_get_roundtrip` on a fresh 6502
with `v = 0x42` and `v = 0x1234`. -/
theorem claim3_set_get_roundtrip_witness :
    ((Mos6502.new.setRegister "a" 0x42).1.getRegister "a" = .ok 0x42) ∧
    ((Mos6502.new.setRegister "pc" 0x1234).1.getRegister "pc" = .ok 0x1234) :=
  ⟨(claim3_set_get_roundtrip.1 Mos6502.new 0x42 (by decide)).1,
   claim3_set_get_roundtrip.2 Mos6502.new 0x1234 (by decide)⟩

/-- Claim C7: for every address in `0x0000–0x007F`, `Mos6502::read_memory`
returns `Ok(0)` in every state, in particular after any sequence of prior
`write_memory` calls to any addresses. -/
theorem claim7_tia_window_reads_zero :
    ∀ (cpu : Mos6502) (writes : List (Nat × Nat)) (address : Nat),
      address ≤ 0x7F →
      (Mos6502.applyWrites cpu writes).readMemory address = .ok 0 := by
  intro cpu writes address h
  unfold Mos6502.readMemory
  rw [if_neg (by omega), if_pos h]

/-- Concrete instantiation of `claim7_tia_window_reads_zero`: after writing
`5` to address `0x10`, reading `0x10` still returns 0. -/
theorem claim7_tia_window_reads_zero_witness :
    (Mos6502.applyWrites Mos6502.new [(0x10, 5)]).readMemory 0x10 = .ok 0 :=
  claim7_tia_window_reads_zero Mos6502.new [(0x10, 5)] 0x10 (by decide)

/-- Claim C10: `Mos6502::read_memory` and `write_memory` are total over all
addresses and never return an error; every address outside the RAM/ROM
backed windows (`0x0080–0x01FF`, `0x1000–0x1FFF`, `0xF000–0xFFFF`),
including everything at or above `0x10000`, reads as 0; and every write
outside the RAM windows (`0x0080–0x01FF`) leaves the state unchanged. -/
theorem claim10_mos6502_memory_total :
    (∀ (cpu : Mos6502) (address : Nat), ∃ b, cpu.readMemory address = .ok b) ∧
    (∀ (cpu : Mos6502) (address value : Nat),
        (cpu.writeMemory address value).2 = none) ∧
    (∀ (cpu : Mos6502) (address : Nat),
        ¬ (0x80 ≤ address ∧ address ≤ 0x1FF) →
        ¬ (0x1000 ≤ address ∧ address ≤ 0x1FFF) →
        ¬ (0xF000 ≤ address ∧ address ≤ 0xFFFF) →
        cpu.readMemory address = .ok 0) ∧
    (∀ (cpu : Mos6502) (address value : Nat),
        ¬ (0x80 ≤ address ∧ address ≤ 0x1FF) →
        (cpu.writeMemory address value).1 = cpu) := by
  refine ⟨?_, ?_, ?_, ?_⟩
  · intro cpu address
    unfold Mos6502.readMemory
    split_ifs <;> exact ⟨_, rfl⟩
  · intro cpu address value
    unfold Mos6502.writeMemory
    split_ifs <;> rfl
  · intro cpu address h1 h2 h3
    unfold Mos6502.readMemory
    split_ifs <;> first | rfl | omega
  · intro cpu address value h
    unfold Mos6502.writeMemory
    split_ifs <;> first | rfl | omega

/-- Concrete instantiation of `claim10_mos6502_memory_total` at the
unmapped address `0x5000` and at `0x20000` (above the 64 KiB space). -/
theorem claim10_mos6502_memory_total_witness :
    (∃ b, Mos6502.new.readMemory 0x20000 = .ok b) ∧
    ((Mos6502.new.writeMemory 0x20000 7).2 = none) ∧
    (Mos6502.new.readMemory 0x5000 = .ok 0) ∧
    ((Mos6502.new.writeMemory 0x5000 7).1 = Mos6502.new) :=
  ⟨claim10_mos6502_memory_total.1 Mos6502.new 0x20000,
   claim10_mos6502_memory_total.2.1 Mos6502.new 0x20000 7,
   claim10_mos6502_memory_total.2.2.1 Mos6502.new 0x5000 (by decide) (by decide)
     (by decide),
   claim10_mos6502_memory_total.2.2.2 Mos6502.new 0x5000 7 (by decide)⟩

theorem readLoop_unmapped (devices : List (String × MemoryDevice)) (address : Nat)
    (regions : List MemoryRegion)
    (h : ∀ r ∈ regions, ¬ (r.start ≤ address ∧ address ≤ r.endAddr)) :
    readLoop devices address regions = .error (.memoryAccessViolation address) := by
  induction regions with
  | nil => rfl
  | cons r rest ih =>
      simp only [readLoop]
      rw [if_neg (h r (List.mem_cons_self r rest))]
      exact ih fun x hx => h x (List.mem_cons_of_mem r hx)

theorem writeLoop_unmapped (m : MemoryMapper) (address value : Nat)
    (regions : List MemoryRegion)
    (h : ∀ r ∈ regions, ¬ (r.start ≤ address ∧ address ≤ r.endAddr)) :
    writeLoop m address value regions = (m, some (.memoryAccessViolation address)) := by
  induction regions with
  | nil => rfl
  | cons r rest ih =>
      simp only [writeLoop]
      rw [if_neg (h r (List.mem_cons_self r rest))]
      exact ih fun x hx => h x (List.mem_cons_of_mem r hx)

/-- Claim C4: `MemoryMapper::add_device` with a device whose range shares at
least one address with a registered region fails with a memory-access
violation and returns with the region list and device map exactly as they
were; a device sharing no address with any registered region (ranges
taken well-formed, `start ≤ end`) is added successfully. -/
theorem claim4_add_device_overlap :
    (∀ (m : MemoryMapper) (name : String) (dev : MemoryDevice)
        (r : MemoryRegion) (address : Nat),
        r ∈ m.regions → r.start ≤ address → address ≤ r.endAddr →
        dev.range.1 ≤ address → address ≤ dev.range.2 →
        m.addDevice name dev = (m, some (.memoryAccessViolation dev.range.1))) ∧
    (∀ (m : MemoryMapper) (name : String) (dev : MemoryDevice),
        dev.range.1 ≤ dev.range.2 →
        (∀ r ∈ m.regions, r.start ≤ r.endAddr) →
        (∀ r ∈ m.regions, ∀ address, ¬ (r.start ≤ address ∧ address ≤ r.endAddr ∧
            dev.range.1 ≤ address ∧ address ≤ dev.range.2)) →
        (m.addDevice name dev).2 = none) := by
  constructor
  · intro m name dev r address hr h1 h2 h3 h4
    have hov : overlapsAny m.regions dev.range.1 dev.range.2 = true := by
      rw [overlapsAny, List.any_eq_true]
      refine ⟨r, hr, ?_⟩
      simp only [decide_eq_true_eq]
      omega
    simp [MemoryMapper.addDevice, hov]
  · intro m name dev hwf hreg hdisj
    have hov : overlapsAny m.regions dev.range.1 dev.range.2 = false := by
      rw [overlapsAny, List.any_eq_false]
      intro r hr
      simp only [decide_eq_true_eq, Decidable.not_not]
      have h1 := hreg r hr
      have h2 := hdisj r hr (max dev.range.1 r.start)
      omega
    simp [MemoryMapper.addDevice, hov]

/-- Concrete instantiation of `claim4_add_device_overlap`: adding a RAM
device at `[10, 20]` to a mapper with a registered region `[0, 15]` fails
leaving the mapper untouched, and adding one at `[100, 109]` to an empty
mapper succeeds. -/
theorem claim4_add_device_overlap_witness :
    (((MemoryMapper.new 256).addDevice "ram0"
        (MemoryDevice.ram (List.replicate 16 0) 0)).1.addDevice "ram1"
        (MemoryDevice.ram (List.replicate 11 0) 10) =
      (((MemoryMapper.new 256).addDevice "ram0"
        (MemoryDevice.ram (List.replicate 16 0) 0)).1,
       some (.memoryAccessViolation 10))) ∧
    (((MemoryMapper.new 256).addDevice "ram2"
        (MemoryDevice.ram (List.replicate 10 0) 100)).2 = none) :=
  ⟨claim4_add_device_overlap.1
      ((MemoryMapper.new 256).addDevice "ram0"
        (MemoryDevice.ram (List.replicate 16 0) 0)).1 "ram1"
      (MemoryDevice.ram (List.replicate 11 0) 10)
      { start := 0, endAddr := 15, access := .readWrite, name := "ram0"
        device := some "ram0" } 10
      (by decide) (by decide) (by decide) (by decide) (by decide),
   claim4_add_device_overlap.2 (MemoryMapper.new 256) "ram2"
      (MemoryDevice.ram (List.replicate 10 0) 100)
      (by decide)
      (fun r hr => absurd hr (List.not_mem_nil r))
      (fun r hr => absurd hr (List.not_mem_nil r))⟩

/-- Claim C5: for every address below the mapper's address-space size
contained in no registered region, both `read` and `write` fail with a
memory-access violation carrying that address (and the write leaves the
mapper exactly as it was) — no default value is ever produced. -/
theorem claim5_unmapped_access_fails :
    ∀ (m : MemoryMapper) (address value : Nat),
      address < m.addressSpaceSize →
      (∀ r ∈ m.regions, ¬ (r.start ≤ address ∧ address ≤ r.endAddr)) →
      m.read address = .error (.memoryAccessViolation address) ∧
      m.write address value = (m, some (.memoryAccessViolation address)) := by
  intro m address value hlt h
  constructor
  · rw [MemoryMapper.read, if_neg (by omega)]
    exact readLoop_unmapped m.devices address m.regions h
  · rw [MemoryMapper.write, if_neg (by omega)]
    exact writeLoop_unmapped m address value m.regions h

/-- Concrete instantiation of `claim5_unmapped_access_fails`: on a mapper
whose only region is `[0, 15]`, address 20 is unmapped and both accesses
fail with a violation at 20. -/
theorem claim5_unmapped_access_fails_witness :
    (((MemoryMapper.new 256).addDevice "ram0"
        (MemoryDevice.ram (List.replicate 16 0) 0)).1.read 20 =
      .error (.memoryAccessViolation 20)) ∧
    (((MemoryMapper.new 256).addDevice "ram0"
        (MemoryDevice.ram (List.replicate 16 0) 0)).1.write 20 7 =
      (((MemoryMapper.new 256).addDevice "ram0"
        (MemoryDevice.ram (List.replicate 16 0) 0)).1,
       some (.memoryAccessViolation 20))) :=
  claim5_unmapped_access_fails
    ((MemoryMapper.new 256).addDevice "ram0"
      (MemoryDevice.ram (List.replicate 16 0) 0)).1 20 7
    (by decide) (by decide)

theorem mem_insertByStart {x r : MemoryRegion} :
    ∀ {l : List MemoryRegion}, r ∈ insertByStart x l → r = x ∨ r ∈ l := by
  intro l
  induction l with
  | nil =>
      intro h
      simp only [insertByStart, List.mem_singleton] at h
      exact Or.inl h
  | cons y ys ih =>
      intro h
      by_cases hs : x.start < y.start
      · simp only [insertByStart, if_pos hs, List.mem_cons] at h
        rcases h with h | h | h
        · exact Or.inl h
        · exact Or.inr (List.mem_cons.mpr (Or.inl h))
        · exact Or.inr (List.mem_cons.mpr (Or.inr h))
      · simp only [insertByStart, if_neg hs, List.mem_cons] at h
        rcases h with h | h
        · exact Or.inr (List.mem_cons.mpr (Or.inl h))
        · rcases ih h with h' | h'
          · exact Or.inl h'
          · exact Or.inr (List.mem_cons.mpr (Or.inr h'))

theorem mem_sortByStart {r : MemoryRegion} :
    ∀ {l : List MemoryRegion}, r ∈ sortByStart l → r ∈ l := by
  intro l
  induction l with
  | nil => intro h; exact h
  | cons x xs ih =>
      intro h
      rcases mem_insertByStart h with h' | h'
      · exact h' ▸ List.mem_cons_self x xs
      · exact List.mem_cons_of_mem x (ih h')

theorem readLoop_eq_noPerm (devices : List (String × MemoryDevice)) (address : Nat)
    (regions : List MemoryRegion)
    (h : ∀ r ∈ regions, r.access = .readWrite) :
    readLoop devices address regions = readLoopNoPerm devices address regions := by
  induction regions with
  | nil => rfl
  | cons r rest ih =>
      have ih' := ih fun x hx => h x (List.mem_cons_of_mem r hx)
      have hr := h r (List.mem_cons_self r rest)
      by_cases hc : r.start ≤ address ∧ address ≤ r.endAddr
      · simp only [readLoop, readLoopNoPerm, if_pos hc, hr]
        rw [if_neg (by rintro (h' | h') <;> cases h'), ih']
      · simp only [readLoop, readLoopNoPerm, if_neg hc]
        exact ih'

theorem writeLoop_eq_noPerm (m : MemoryMapper) (address value : Nat)
    (regions : List MemoryRegion)
    (h : ∀ r ∈ regions, r.access = .readWrite) :
    writeLoop m address value regions = writeLoopNoPerm m address value regions := by
  induction regions with
  | nil => rfl
  | cons r rest ih =>
      have ih' := ih fun x hx => h x (List.mem_cons_of_mem r hx)
      have hr := h r (List.mem_cons_self r rest)
      by_cases hc : r.start ≤ address ∧ address ≤ r.endAddr
      · simp only [writeLoop, writeLoopNoPerm, if_pos hc, hr]
        rw [if_neg (by rintro (h' | h') <;> cases h'), ih']
      · simp only [writeLoop, writeLoopNoPerm, if_neg hc]
        exact ih'

/-- Claim C9: a fresh mapper has no regions, `add_device` only ever creates
`ReadWrite` regions (on failure it leaves the regions as they were, so
all-`ReadWrite` region lists stay all-`ReadWrite`); on such a mapper
`read` and `write` behave exactly as the same scans with the
`ReadOnly`/`WriteOnly`/`NoAccess` rejection branches deleted — those
branches are unreachable; and `RomDevice::write` always fails with a
memory-access violation without touching the ROM bytes, which is the
sole source of ROM write protection. -/
theorem claim9_readwrite_only_regions :
    (∀ (size : Nat) (r : MemoryRegion),
        r ∈ (MemoryMapper.new size).regions → r.access = .readWrite) ∧
    (∀ (m : MemoryMapper) (name : String) (dev : MemoryDevice) (r : MemoryRegion),
        (∀ x ∈ m.regions, x.access = .readWrite) →
        r ∈ (m.addDevice name dev).1.regions → r.access = .readWrite) ∧
    (∀ (m : MemoryMapper) (address : Nat),
        (∀ r ∈ m.regions, r.access = .readWrite) →
        m.read address = m.readNoPerm address) ∧
    (∀ (m : MemoryMapper) (address value : Nat),
        (∀ r ∈ m.regions, r.access = .readWrite) →
        m.write address value = m.writeNoPerm address value) ∧
    (∀ (data : List Nat) (startAddress address value : Nat),
        (MemoryDevice.rom data startAddress).write address value =
          .error (.memoryAccessViolation address)) := by
  refine ⟨?_, ?_, ?_, ?_, ?_⟩
  · intro size r h
    exact absurd h (List.not_mem_nil r)
  · intro m name dev r hall hr
    by_cases hov : overlapsAny m.regions dev.range.1 dev.range.2
    · simp only [MemoryMapper.addDevice, hov, if_true] at hr
      exact hall r hr
    · simp only [MemoryMapper.addDevice, Bool.not_eq_true] at hr
      rw [if_neg (by simp [hov])] at hr
      have hr' := mem_sortByStart hr
      rcases List.mem_append.mp hr' with h' | h'
      · exact hall r h'
      · rw [List.mem_singleton.mp h']
  · intro m address hall
    rw [MemoryMapper.read, MemoryMapper.readNoPerm]
    by_cases hsz : m.addressSpaceSize ≤ address
    · rw [if_pos hsz, if_pos hsz]
    · rw [if_neg hsz, if_neg hsz]
      exact readLoop_eq_noPerm m.devices address m.regions hall
  · intro m address value hall
    rw [MemoryMapper.write, MemoryMapper.writeNoPerm]
    by_cases hsz : m.addressSpaceSize ≤ address
    · rw [if_pos hsz, if_pos hsz]
    · rw [if_neg hsz, if_neg hsz]
      exact writeLoop_eq_noPerm m address value m.regions hall
  · intro data startAddress address value
    rfl

/-- Concrete instantiation of `claim9_readwrite_only_regions` on a mapper
holding one RAM device at `[0, 15]`. -/
theorem claim9_readwrite_only_regions_witness :
    (({ start := 0, endAddr := 15, access := .readWrite, name := "ram0"
        device := some "ram0" } : MemoryRegion).access = .readWrite) ∧
    (((MemoryMapper.new 256).addDevice "ram0"
        (MemoryDevice.ram (List.replicate 16 0) 0)).1.read 3 =
      ((MemoryMapper.new 256).addDevice "ram0"
        (MemoryDevice.ram (List.replicate 16 0) 0)).1.readNoPerm 3) ∧
    (((MemoryMapper.new 256).addDevice "ram0"
        (MemoryDevice.ram (List.replicate 16 0) 0)).1.write 3 9 =
      ((MemoryMapper.new 256).addDevice "ram0"
        (MemoryDevice.ram (List.replicate 16 0) 0)).1.writeNoPerm 3 9) ∧
    ((MemoryDevice.rom [1, 2] 0).write 0 5 = .error (.memoryAccessViolation 0)) := by
  refine ⟨?_, ?_, ?_, ?_⟩
  · exact claim9_readwrite_only_regions.2.1 (MemoryMapper.new 256) "ram0"
      (MemoryDevice.ram (List.replicate 16 0) 0) _
      (fun x hx => absurd hx (List.not_mem_nil x)) (by decide)
  · exact claim9_readwrite_only_regions.2.2.1 _ 3 (by decide)
  · exact claim9_readwrite_only_regions.2.2.2.1 _ 3 9 (by decide)
  · exact claim9_readwrite_only_regions.2.2.2.2 [1, 2] 0 0 5

theorem detectByExtension_bin (romPath : String) (n : Nat) :
    detectByExtension romPath "bin" n =
      if n ≤ 1048576 then .ok "atari2600" else .ok "ps1" := by
  show (if n ≤ 4096 then (Except.ok "atari2600" : Except EmuliteError String)
      else if n ≤ 1048576 then .ok "atari2600" else .ok "ps1") = _
  split_ifs <;> first | rfl | omega

/-- Claim C8, counterexample: a buffer whose first four bytes are the
`NES\x1A` magic is not always classified "nes" — the detector demands at
least 16 bytes before testing the magic, so the 4-byte buffer holding
exactly the magic with a `.bin` extension falls through to the size rule
and classifies as "atari2600". -/
theorem claim8_counterexample :
    detectPlatform "rom.bin" "bin" [0x4E, 0x45, 0x53, 0x1A] =
      some (.ok "atari2600") ∧ ("atari2600" : String) ≠ "nes" :=
  ⟨rfl, by decide⟩

/-- Claim C8 (amended): a buffer of at least 16 bytes whose first four
bytes are the `NES\x1A` magic classifies as "nes"; a 20 KiB `.bin`
buffer without the magic classifies as "atari2600"; and in general a
`.bin` buffer with no recognizable header (no iNES magic, and either too
short for the SNES title probe or with an all-zero title window)
classifies as "atari2600" when its size is at most 1 MiB and as "ps1"
when larger. -/
theorem claim8_platform_detection :
    (∀ (romPath extension : String) (romData : List Nat),
        16 ≤ romData.length → romData.take 4 = nesMagic →
        detectPlatform romPath extension romData = some (.ok "nes")) ∧
    (∀ (romPath : String) (romData : List Nat),
        romData.length = 20480 → romData.take 4 ≠ nesMagic →
        detectPlatform romPath "bin" romData = some (.ok "atari2600")) ∧
    (∀ (romPath : String) (romData : List Nat),
        ¬ (16 ≤ romData.length ∧ romData.take 4 = nesMagic) →
        (romData.length < 0x7FC0 ∨
          (0x8000 ≤ romData.length ∧ ∀ b ∈ (romData.drop 0x7FC0).take 21, b = 0) ∨
          (0x7FC5 ≤ romData.length ∧ romData.length < 0x8000 ∧
            ∀ b ∈ (romData.drop 0x7FB0).take 21, b = 0)) →
        detectPlatform romPath "bin" romData =
          some (if romData.length ≤ 1048576 then .ok "atari2600" else .ok "ps1")) := by
  refine ⟨?_, ?_, ?_⟩
  · intro romPath extension romData hlen hmagic
    rw [detectPlatform, if_pos ⟨hlen, hmagic⟩]
  · intro romPath romData hlen hmagic
    rw [detectPlatform, if_neg (fun h => hmagic h.2), hlen,
      if_neg (by omega), detectByExtension_bin, if_pos (by omega)]
  · intro romPath romData hnot hcase
    simp only [detectPlatform]
    rw [if_neg hnot]
    rcases hcase with h | ⟨h1, h2⟩ | ⟨h1, h2, h3⟩
    · rw [if_neg (by omega), detectByExtension_bin]
    · rw [if_pos (by omega : (0x7FC0 : Nat) ≤ romData.length), if_pos h1,
        if_pos (by omega : (0x7FC0 : Nat) < romData.length),
        if_pos (by omega : (0x7FC0 : Nat) + 21 ≤ romData.length)]
      have hany : ((romData.drop 0x7FC0).take 21).any (fun b => decide (b ≠ 0)) = false := by
        rw [List.any_eq_false]
        intro b hb
        simpa using h2 b hb
      rw [hany, if_neg (by decide), detectByExtension_bin]
    · rw [if_pos (by omega : (0x7FC0 : Nat) ≤ romData.length),
        if_neg (by omega : ¬ (0x8000 : Nat) ≤ romData.length),
        if_pos (by omega : (0x7FB0 : Nat) < romData.length),
        if_pos (by omega : (0x7FB0 : Nat) + 21 ≤ romData.length)]
      have hany : ((romData.drop 0x7FB0).take 21).any (fun b => decide (b ≠ 0)) = false := by
        rw [List.any_eq_false]
        intro b hb
        simpa using h3 b hb
      rw [hany, if_neg (by decide), detectByExtension_bin]

/-- Concrete instantiation of `claim8_platform_detection`: a 16-byte
buffer starting with the iNES magic is "nes"; a 20 KiB zero `.bin`
buffer is "atari2600"; a 100-byte header-less `.bin` buffer follows the
size rule. -/
theorem claim8_platform_detection_witness :
    detectPlatform "game.bin" "bin" (nesMagic ++ List.replicate 12 0) =
      some (.ok "nes") ∧
    detectPlatform "game.bin" "bin" (List.replicate 20480 0) =
      some (.ok "atari2600") ∧
    detectPlatform "game.bin" "bin" (List.replicate 100 7) =
      some (.ok "atari2600") := by
  refine ⟨?_, ?_, ?_⟩
  · exact claim8_platform_detection.1 "game.bin" "bin"
      (nesMagic ++ List.replicate 12 0) (by decide) (by decide)
  · exact claim8_platform_detection.2.1 "game.bin" (List.replicate 20480 0)
      (List.length_replicate 20480 0) (by decide)
  · have h := claim8_platform_detection.2.2 "game.bin" (List.replicate 100 7)
      (by decide) (Or.inl (by decide))
    rw [show (List.replicate 100 7).length = 100 from by decide,
      if_pos (by decide : (100 : Nat) ≤ 1048576)] at h
    exact h

end Emulite
